import Mathlib

/-!
# Session manager of the remote client (Qt Installer Framework)

A shallow embedding of `src/libs/installer/remoteclient_p.h`
(`KeepAliveObject`, `RemoteClientPrivate`) and of the session-control
identifiers of `src/libs/installer/protocol.h`.

Everything the session manager does to the outside world (elevation adapter,
message box, detached spawn, transport connect, stream writes) is appended to
a trace of events.  The outside world answers through an environment of
oracles; an oracle sees the whole history so far, so every sequence of
outcomes, adaptive or not, is covered.  The re-entrant mutex is not modelled:
calls are serialized.
-/

namespace QInstaller

namespace Protocol

def Create : String := "Create"

def Destroy : String := "Destroy"

def Shutdown : String := "Shutdown"

def Authorize : String := "Authorize"

def DebugAuthorizationKey : String := "DebugAuthorizationKey"

end Protocol

/-- Modelled from the spec: the enumeration RemoteClient::Mode is declared in
remoteclient.h, which is not among the sources; the spec gives its values as
one of Debug and Release. -/
inductive Mode where
  | Debug
  | Release
  deriving DecidableEq, Repr

/-- The answer of the authorization-error dialog (QMessageBox::Button); the
dialog offers Abort and Ok, any other answer is NoButton. -/
inductive Button where
  | Ok
  | Abort
  | NoButton
  deriving DecidableEq, Repr

/-- One observable action of the session manager on its collaborators. -/
inductive Event where
  /-- The keep-alive object was created and scheduled on the session thread. -/
  | keepAlive
  /-- AdminAuthorization::authorize() was called and returned the flag. -/
  | authorize (ok : Bool)
  /-- AdminAuthorization::execute(0, command, arguments) returned the flag. -/
  | execute (command : String) (arguments : List String) (ok : Bool)
  /-- MessageBoxHandler::critical showed the fallback command line. -/
  | critical (fallback : String) (res : Button)
  /-- QInstaller::startDetached(command, arguments, dir) returned the flag. -/
  | startDetached (command : String) (arguments : List String) (ok : Bool)
  /-- RemoteClient::connect() was called; the flag tells whether a socket came back. -/
  | connect (ok : Bool)
  /-- One item streamed into the open socket. -/
  | write (data : String)
  /-- The open socket was flushed. -/
  | flush
  /-- The scoped socket pointer went out of scope: the channel is closed. -/
  | close
  deriving DecidableEq, Repr

/-- The outside world.  Each oracle is asked with the history so far. -/
structure Env where
  authorize : List Event → Bool
  execute : List Event → Bool
  critical : List Event → Button
  startDetached : List Event → Bool
  connect : List Event → Bool
  /-- The reading of the QElapsedTimer of the running start attempt, in ms. -/
  elapsed : List Event → Nat

/-- The data members of RemoteClientPrivate (q_ptr and the mutex apart);
m_thread tells whether the session thread runs, m_mode is none until init. -/
structure RemoteClientPrivate where
  m_address : String
  m_port : Nat
  m_socket : String
  m_startServerAsAdmin : Bool
  m_serverStarted : Bool
  m_serverStarting : Bool
  m_active : Bool
  m_serverCommand : String
  m_serverArguments : List String
  m_key : String
  m_thread : Bool
  m_mode : Option Mode
  m_quit : Bool
  deriving DecidableEq, Repr

/-- A session together with the history of its actions. -/
abbrev State := RemoteClientPrivate × List Event

/-- The constructor RemoteClientPrivate(parent): the members without an
initialiser are default constructed. -/
def RemoteClientPrivate.new : RemoteClientPrivate :=
  { m_address := ""
    m_port := 0
    m_socket := ""
    m_startServerAsAdmin := false
    m_serverStarted := false
    m_serverStarting := false
    m_active := false
    m_serverCommand := ""
    m_serverArguments := []
    m_key := ""
    m_thread := false
    m_mode := none
    m_quit := false }

/-- Modelled from the spec: RemoteClient::connect() is defined in
remoteclient.cpp, which is not among the sources.  By the transport contract
of the spec it yields a channel or a failure; it sends nothing and changes no
session member. -/
def connect (env : Env) (st : State) : Bool × State :=
  (env.connect st.2, (st.1, st.2 ++ [Event.connect (env.connect st.2)]))

/-- The end of the scope of a QScopedPointer to a socket: a socket that was
obtained is deleted, which closes the channel. -/
def scopeExit (socket : Bool) (st : State) : State :=
  if socket then (st.1, st.2 ++ [Event.close]) else st

/-- RemoteClientPrivate::init(port, address, mode). -/
def init (port : Nat) (address : String) (mode : Mode) (st : State) : State :=
  let d := { st.1 with m_port := port, m_mode := some mode, m_address := address }
  if d.m_mode = some Mode.Release then
    ({ d with m_thread := true }, st.2 ++ [Event.keepAlive])
  else if mode = Mode.Debug then
    ({ d with
        m_active := true
        m_serverStarted := true
        m_key := Protocol.DebugAuthorizationKey }, st.2)
  else
    (d, st.2)

/-- The condition of the elevated launch in maybeStartServer,
auth.authorize() && auth.execute(0, command, arguments): execute is called
only when authorize returned true.  Returns the value and the history. -/
def authorizeAndExecute (env : Env) (d : RemoteClientPrivate) (tr : List Event) :
    Bool × List Event :=
  let authorized := env.authorize tr
  let tr := tr ++ [Event.authorize authorized]
  if authorized then
    (env.execute tr,
      tr ++ [Event.execute d.m_serverCommand d.m_serverArguments (env.execute tr)])
  else
    (false, tr)

/-- The launch of the server in maybeStartServer: through the elevation
adapter, with the fallback dialog when that fails, or as a detached process. -/
def startServer (env : Env) (st : State) : State :=
  if st.1.m_startServerAsAdmin then
    let r := authorizeAndExecute env st.1 st.2
    let d := { st.1 with m_serverStarted := r.1 }
    if !d.m_serverStarted then
      let fallback := d.m_serverCommand ++ " " ++ " ".intercalate d.m_serverArguments
      let res := env.critical r.2
      let tr := r.2 ++ [Event.critical fallback res]
      if res = Button.Ok then
        ({ d with m_serverStarted := true }, tr)
      else
        (d, tr)
    else
      (d, r.2)
  else
    let started := env.startDetached st.2
    ({ st.1 with m_serverStarted := started },
      st.2 ++ [Event.startDetached st.1.m_serverCommand st.1.m_serverArguments started])

/-- The condition of the verification loop of maybeStartServer. -/
def verifying (env : Env) (st : State) : Bool :=
  st.1.m_serverStarting && st.1.m_serverStarted && decide (env.elapsed st.2 < 30000)

/-- The body of the verification loop: one connect; a socket clears
m_serverStarting and is closed at the end of the iteration. -/
def verifyStep (env : Env) (st : State) : State :=
  let r := connect env st
  let st := if r.1 then ({ r.2.1 with m_serverStarting := false }, r.2.2) else r.2
  scopeExit r.1 st

/-- The verification loop of maybeStartServer.  The fuel bounds the number of
times the body runs; none means the bound was hit with the loop still going. -/
def verifyLoop (env : Env) : Nat → State → Option State
  | 0, st => if verifying env st then none else some st
  | fuel + 1, st =>
    if verifying env st then verifyLoop env fuel (verifyStep env st) else some st

/-- RemoteClientPrivate::maybeStartServer(). -/
def maybeStartServer (env : Env) (fuel : Nat) (st : State) : Option State :=
  if st.1.m_serverStarted || st.1.m_serverCommand.isEmpty then
    some st
  else if st.1.m_serverStarted then
    some st
  else
    let st := startServer env ({ st.1 with m_serverStarting := true }, st.2)
    let looped := if st.1.m_serverStarted then verifyLoop env fuel st else some st
    looped.map fun st => ({ st.1 with m_serverStarting := false }, st.2)

/-- RemoteClientPrivate::maybeStopServer(). -/
def maybeStopServer (env : Env) (st : State) : State :=
  if !st.1.m_serverStarted then
    st
  else if !st.1.m_serverStarted then
    st
  else
    let r := connect env st
    let st := r.2
    let st :=
      if r.1 then
        (st.1, st.2 ++ [Event.write Protocol.Authorize, Event.write st.1.m_key,
          Event.write Protocol.Shutdown, Event.flush])
      else st
    scopeExit r.1 ({ st.1 with m_serverStarted := false }, st.2)

/-- The members of KeepAliveObject: the interval of the running timer (none
when the timer is stopped) and whether the guarded client pointer is set. -/
structure KeepAliveObject where
  m_timer : Option Nat
  m_client : Bool
  deriving DecidableEq, Repr

/-- KeepAliveObject::run(). -/
def KeepAliveObject.run (k : KeepAliveObject) : KeepAliveObject :=
  { k with m_timer := some 1000 }

/-- KeepAliveObject::onTimeout(). -/
def KeepAliveObject.onTimeout (env : Env) (k : KeepAliveObject) (st : State) :
    KeepAliveObject × State :=
  let k := { k with m_timer := none }
  if !k.m_client then
    (k, st)
  else
    let r := connect env st
    let st := scopeExit r.1 r.2
    ({ k with m_timer := some 1000 }, st)

/-! ## Observers of a history -/

/-- A run of failed connects, the history a verification loop builds while
no connect succeeds. -/
def fails (n : Nat) : List Event :=
  List.replicate n (Event.connect false)

/-- Whether an event is a transport connect. -/
def Event.isConnect : Event → Bool
  | Event.connect _ => true
  | _ => false

/-- Whether an event puts something on a channel (an item or a flush). -/
def Event.isSend : Event → Bool
  | Event.write _ => true
  | Event.flush => true
  | _ => false

/-- Whether an event starts a launch attempt: an elevation attempt starts
with authorize(), a direct one is the detached spawn. -/
def Event.isAttempt : Event → Bool
  | Event.authorize _ => true
  | Event.startDetached _ _ _ => true
  | _ => false

/-- Whether an event is a call of the elevation adapter or a spawn. -/
def Event.isLaunch : Event → Bool
  | Event.authorize _ => true
  | Event.execute _ _ _ => true
  | Event.startDetached _ _ _ => true
  | _ => false

/-- The launch reports success: the detached spawn returns true, or
authorize() and then execute() both return true. -/
def launchSucceeds (env : Env) (d : RemoteClientPrivate) (tr : List Event) : Prop :=
  (d.m_startServerAsAdmin = false ∧ env.startDetached tr = true) ∨
  (d.m_startServerAsAdmin = true ∧ env.authorize tr = true ∧
    env.execute (tr ++ [Event.authorize true]) = true)

instance (env : Env) (d : RemoteClientPrivate) (tr : List Event) :
    Decidable (launchSucceeds env d tr) := by
  unfold launchSucceeds
  infer_instance

/-- The elevation adapter fails: authorize() returns false, or authorize()
returns true and execute() returns false. -/
def elevationFails (env : Env) (tr : List Event) : Prop :=
  env.authorize tr = false ∨
  (env.authorize tr = true ∧ env.execute (tr ++ [Event.authorize true]) = false)

instance (env : Env) (tr : List Event) : Decidable (elevationFails env tr) := by
  unfold elevationFails
  infer_instance

/-- The history at the first check of the verification loop of a start
attempt made on session d with history tr. -/
def launchTrace (env : Env) (d : RemoteClientPrivate) (tr : List Event) : List Event :=
  (startServer env ({ d with m_serverStarting := true }, tr)).2

/-- Within n failed connects after history tr the verification loop meets the
deadline or a connect that succeeds. -/
def settlesWithin (env : Env) (tr : List Event) (n : Nat) : Prop :=
  ∃ j, j ≤ n ∧ (30000 ≤ env.elapsed (tr ++ fails j) ∨ env.connect (tr ++ fails j) = true)

instance (env : Env) (tr : List Event) (n : Nat) : Decidable (settlesWithin env tr n) := by
  unfold settlesWithin
  infer_instance

/-- A call of the session manager made by the client library. -/
inductive Call where
  | start
  | stop
  deriving DecidableEq, Repr

/-- A serialized sequence of ensure-started and ensure-stopped calls. -/
def runCalls (env : Env) (fuel : Nat) : List Call → State → Option State
  | [], st => some st
  | Call.start :: cs, st => (maybeStartServer env fuel st).bind (runCalls env fuel cs)
  | Call.stop :: cs, st => runCalls env fuel cs (maybeStopServer env st)

/-! ## Sample sessions and environments -/

/-- An environment with fixed answers: the adapter, the dialog and the spawn
answer as given, every connect takes tick ms of the timer, and the server
accepts connections once upAfter connects were made before. -/
def scripted (auth exec : Bool) (res : Button) (spawn : Bool) (upAfter tick : Nat) : Env :=
  { authorize := fun _ => auth
    execute := fun _ => exec
    critical := fun _ => res
    startDetached := fun _ => spawn
    connect := fun tr => decide (upAfter ≤ (tr.filter Event.isConnect).length)
    elapsed := fun tr => tick * (tr.filter Event.isConnect).length }

/-- A release-mode session, initialised, with a server command to spawn. -/
def releaseSession : RemoteClientPrivate :=
  { (init 39999 "127.0.0.1" Mode.Release (RemoteClientPrivate.new, [])).1 with
    m_serverCommand := "installerbase"
    m_serverArguments := ["--startserver", "39999"]
    m_key := "secret" }

/-- The release-mode session when the server has to be started elevated. -/
def adminSession : RemoteClientPrivate :=
  { releaseSession with m_startServerAsAdmin := true }

/-- The release-mode session with the server running. -/
def startedSession : RemoteClientPrivate :=
  { releaseSession with m_serverStarted := true }

/-- A debug-mode session that was given a server command before init. -/
def debugSession : State :=
  init 39999 "127.0.0.1" Mode.Debug
    ({ RemoteClientPrivate.new with m_serverCommand := "installerbase" }, [])

/-- A watchdog whose timer runs and whose client is alive. -/
def watchdog : KeepAliveObject :=
  KeepAliveObject.run { m_timer := none, m_client := true }

theorem append_fails_succ (tr : List Event) (j : Nat) :
    tr ++ fails (j + 1) = (tr ++ [Event.connect false]) ++ fails j := by
  simp [fails, List.replicate_succ]

theorem verifyStep_fail (env : Env) (st : State) (h : env.connect st.2 = false) :
    verifyStep env st = (st.1, st.2 ++ [Event.connect false]) := by
  simp [verifyStep, connect, scopeExit, h]

theorem verifyStep_ok (env : Env) (st : State) (h : env.connect st.2 = true) :
    verifyStep env st =
      ({ st.1 with m_serverStarting := false }, st.2 ++ [Event.connect true, Event.close]) := by
  simp [verifyStep, connect, scopeExit, h]

theorem verifyLoop_done (env : Env) (fuel : Nat) (st : State)
    (h : verifying env st = false) : verifyLoop env fuel st = some st := by
  cases fuel <;> simp [verifyLoop, h]

theorem verifying_of_flags (env : Env) (d : RemoteClientPrivate) (tr : List Event)
    (hs : d.m_serverStarting = true) (hst : d.m_serverStarted = true) :
    verifying env (d, tr) = decide (env.elapsed tr < 30000) := by
  simp [verifying, hs, hst]

/-- After n failed connects made before the deadline the loop stops at the
first check that sees the deadline passed. -/
theorem verifyLoop_timeout (env : Env) :
    ∀ (n fuel : Nat) (d : RemoteClientPrivate) (tr : List Event),
      d.m_serverStarting = true → d.m_serverStarted = true → n ≤ fuel →
      (∀ j, j < n → env.elapsed (tr ++ fails j) < 30000 ∧ env.connect (tr ++ fails j) = false) →
      30000 ≤ env.elapsed (tr ++ fails n) →
      verifyLoop env fuel (d, tr) = some (d, tr ++ fails n) := by
  intro n
  induction n with
  | zero =>
    intro fuel d tr hs hst _ _ hdead
    have hv : verifying env (d, tr) = false := by
      have : ¬ env.elapsed tr < 30000 := by simpa [fails] using hdead
      simp [verifying, this]
    simpa [fails] using verifyLoop_done env fuel (d, tr) hv
  | succ n ih =>
    intro fuel d tr hs hst hfuel hfail hdead
    obtain ⟨fuel, rfl⟩ : ∃ f, fuel = f + 1 := ⟨fuel - 1, by omega⟩
    have h0 := hfail 0 (by omega)
    simp only [fails, List.replicate_zero, List.append_nil] at h0
    have hv : verifying env (d, tr) = true := by
      rw [verifying_of_flags env d tr hs hst]
      exact decide_eq_true h0.1
    rw [verifyLoop, if_pos hv, verifyStep_fail env (d, tr) h0.2, append_fails_succ]
    apply ih fuel d _ hs hst (by omega)
    · intro j hj
      rw [← append_fails_succ]
      exact hfail (j + 1) (by omega)
    · rw [← append_fails_succ]
      exact hdead

/-- After n failed connects made before the deadline a connect that succeeds
before the deadline ends the loop: the socket is closed, Starting is cleared. -/
theorem verifyLoop_success (env : Env) :
    ∀ (n fuel : Nat) (d : RemoteClientPrivate) (tr : List Event),
      d.m_serverStarting = true → d.m_serverStarted = true → n + 1 ≤ fuel →
      (∀ j, j < n → env.elapsed (tr ++ fails j) < 30000 ∧ env.connect (tr ++ fails j) = false) →
      env.elapsed (tr ++ fails n) < 30000 → env.connect (tr ++ fails n) = true →
      verifyLoop env fuel (d, tr) =
        some ({ d with m_serverStarting := false },
          tr ++ fails n ++ [Event.connect true, Event.close]) := by
  intro n
  induction n with
  | zero =>
    intro fuel d tr hs hst hfuel _ hel hok
    obtain ⟨fuel, rfl⟩ : ∃ f, fuel = f + 1 := ⟨fuel - 1, by omega⟩
    simp only [fails, List.replicate_zero, List.append_nil] at hel hok
    have hv : verifying env (d, tr) = true := by
      rw [verifying_of_flags env d tr hs hst]
      exact decide_eq_true hel
    rw [verifyLoop, if_pos hv, verifyStep_ok env (d, tr) hok]
    rw [verifyLoop_done]
    · simp [fails]
    · simp [verifying]
  | succ n ih =>
    intro fuel d tr hs hst hfuel hfail hel hok
    obtain ⟨fuel, rfl⟩ : ∃ f, fuel = f + 1 := ⟨fuel - 1, by omega⟩
    have h0 := hfail 0 (by omega)
    simp only [fails, List.replicate_zero, List.append_nil] at h0
    have hv : verifying env (d, tr) = true := by
      rw [verifying_of_flags env d tr hs hst]
      exact decide_eq_true h0.1
    rw [verifyLoop, if_pos hv, verifyStep_fail env (d, tr) h0.2, append_fails_succ]
    apply ih fuel d _ hs hst (by omega)
    · intro j hj
      rw [← append_fails_succ]
      exact hfail (j + 1) (by omega)
    · rw [← append_fails_succ]
      exact hel
    · rw [← append_fails_succ]
      exact hok

/-- The loop returns as soon as the deadline or a successful connect is met:
after m failed connects, with or without a last one that succeeds, and with
no member changed but m_serverStarting. -/
theorem verifyLoop_settles (env : Env) :
    ∀ (n fuel : Nat) (d : RemoteClientPrivate) (tr : List Event),
      settlesWithin env tr n → n < fuel →
      ∃ (m : Nat) (b : Bool), m ≤ n ∧ verifyLoop env fuel (d, tr) =
        some (if b then { d with m_serverStarting := false } else d,
          tr ++ (fails m ++ if b then [Event.connect true, Event.close] else [])) := by
  intro n
  induction n with
  | zero =>
    intro fuel d tr hset hfuel
    obtain ⟨fuel, rfl⟩ : ∃ f, fuel = f + 1 := ⟨fuel - 1, by omega⟩
    obtain ⟨j, hj, hend⟩ := hset
    obtain rfl : j = 0 := by omega
    simp only [fails, List.replicate_zero, List.append_nil] at hend
    by_cases hv : verifying env (d, tr) = true
    · have hok : env.connect tr = true := by
        rcases hend with hdead | hok
        · simp [verifying] at hv
          omega
        · exact hok
      refine ⟨0, true, le_refl _, ?_⟩
      rw [verifyLoop, if_pos hv, verifyStep_ok env (d, tr) hok]
      rw [verifyLoop_done env fuel _ (by simp [verifying])]
      simp [fails]
    · refine ⟨0, false, le_refl _, ?_⟩
      rw [verifyLoop_done env _ _ (by simpa using hv)]
      simp [fails]
  | succ n ih =>
    intro fuel d tr hset hfuel
    obtain ⟨fuel, rfl⟩ : ∃ f, fuel = f + 1 := ⟨fuel - 1, by omega⟩
    by_cases hv : verifying env (d, tr) = true
    · by_cases hok : env.connect tr = true
      · refine ⟨0, true, Nat.zero_le _, ?_⟩
        rw [verifyLoop, if_pos hv, verifyStep_ok env (d, tr) hok]
        rw [verifyLoop_done env fuel _ (by simp [verifying])]
        simp [fails]
      · have hno : env.connect tr = false := by simpa using hok
        have hset2 : settlesWithin env (tr ++ [Event.connect false]) n := by
          obtain ⟨j, hj, hend⟩ := hset
          cases j with
          | zero =>
            simp only [fails, List.replicate_zero, List.append_nil] at hend
            rcases hend with hdead | h
            · simp [verifying] at hv
              omega
            · rw [hno] at h
              exact absurd h (by decide)
          | succ j =>
            refine ⟨j, by omega, ?_⟩
            rw [← append_fails_succ]
            exact hend
        obtain ⟨m, b, hm, hloop⟩ := ih fuel d _ hset2 (by omega)
        refine ⟨m + 1, b, by omega, ?_⟩
        rw [verifyLoop, if_pos hv, verifyStep_fail env (d, tr) hno, hloop]
        simp [fails, List.replicate_succ]
    · refine ⟨0, false, Nat.zero_le _, ?_⟩
      rw [verifyLoop_done env _ _ (by simpa using hv)]
      simp [fails]

/-! ## The launch -/

theorem startServer_of_success (env : Env) (d : RemoteClientPrivate) (tr : List Event)
    (h : launchSucceeds env d tr) :
    startServer env (d, tr) =
      ({ d with m_serverStarted := true },
        tr ++ if d.m_startServerAsAdmin then
          [Event.authorize true, Event.execute d.m_serverCommand d.m_serverArguments true]
        else [Event.startDetached d.m_serverCommand d.m_serverArguments true]) := by
  rcases h with ⟨hadmin, hspawn⟩ | ⟨hadmin, hauth, hexec⟩
  · simp [startServer, hadmin, hspawn]
  · simp [startServer, authorizeAndExecute, hadmin, hauth, hexec]

theorem authorizeAndExecute_of_fails (env : Env) (d : RemoteClientPrivate) (tr : List Event)
    (h : elevationFails env tr) :
    authorizeAndExecute env d tr =
      (false, tr ++ if env.authorize tr then
          [Event.authorize true, Event.execute d.m_serverCommand d.m_serverArguments false]
        else [Event.authorize false]) := by
  rcases h with hauth | ⟨hauth, hexec⟩
  · simp [authorizeAndExecute, hauth]
  · simp [authorizeAndExecute, hauth, hexec]

theorem maybeStartServer_fast (env : Env) (fuel : Nat) (st : State)
    (h : st.1.m_serverStarted = true ∨ st.1.m_serverCommand.isEmpty = true) :
    maybeStartServer env fuel st = some st := by
  rcases h with h | h <;> simp [maybeStartServer, h]

theorem maybeStartServer_slow (env : Env) (fuel : Nat) (d : RemoteClientPrivate)
    (tr : List Event) (hns : d.m_serverStarted = false)
    (hcmd : d.m_serverCommand.isEmpty = false) :
    maybeStartServer env fuel (d, tr) =
      (if (startServer env ({ d with m_serverStarting := true }, tr)).1.m_serverStarted then
          verifyLoop env fuel (startServer env ({ d with m_serverStarting := true }, tr))
        else some (startServer env ({ d with m_serverStarting := true }, tr))).map
        fun st => ({ st.1 with m_serverStarting := false }, st.2) := by
  simp [maybeStartServer, hns, hcmd]

theorem maybeStopServer_idle (env : Env) (st : State) (h : st.1.m_serverStarted = false) :
    maybeStopServer env st = st := by
  simp [maybeStopServer, h]

theorem startServer_of_fallback (env : Env) (d : RemoteClientPrivate) (tr : List Event)
    (hadmin : d.m_startServerAsAdmin = true) (hfail : elevationFails env tr) :
    startServer env (d, tr) =
      ({ d with m_serverStarted := decide (env.critical (authorizeAndExecute env d tr).2 = Button.Ok) },
        (authorizeAndExecute env d tr).2 ++
          [Event.critical (d.m_serverCommand ++ " " ++ " ".intercalate d.m_serverArguments)
            (env.critical (authorizeAndExecute env d tr).2)]) := by
  have h1 : (authorizeAndExecute env d tr).1 = false := by
    rw [authorizeAndExecute_of_fails env d tr hfail]
  by_cases hres : env.critical (authorizeAndExecute env d tr).2 = Button.Ok
  · simp [startServer, hadmin, h1, hres]
  · simp [startServer, hadmin, h1, hres]

theorem mem_fails (n : Nat) (e : Event) (h : e ∈ fails n) : e = Event.connect false :=
  List.eq_of_mem_replicate h

theorem filter_isConnect_fails (n : Nat) : (fails n).filter Event.isConnect = fails n := by
  apply List.filter_eq_self.mpr
  intro e he
  rw [mem_fails n e he]
  rfl

theorem length_fails (n : Nat) : (fails n).length = n := by
  simp [fails]

/-- The launch step neither connects nor sends. -/
theorem startServer_events (env : Env) (st : State) :
    ∃ ev, (startServer env st).2 = st.2 ++ ev ∧
      ∀ e ∈ ev, e.isConnect = false ∧ e.isSend = false := by
  unfold startServer authorizeAndExecute
  by_cases hadmin : st.1.m_startServerAsAdmin = true
  · by_cases hauth : env.authorize st.2 = true
    · by_cases hexec : env.execute (st.2 ++ [Event.authorize true]) = true
      · exact ⟨[Event.authorize true,
          Event.execute st.1.m_serverCommand st.1.m_serverArguments true],
          by simp [hadmin, hauth, hexec], by simp [Event.isConnect, Event.isSend]⟩
      · by_cases hres : env.critical (st.2 ++ [Event.authorize true,
            Event.execute st.1.m_serverCommand st.1.m_serverArguments false]) = Button.Ok
        · exact ⟨[Event.authorize true,
            Event.execute st.1.m_serverCommand st.1.m_serverArguments false,
            Event.critical
              (st.1.m_serverCommand ++ " " ++ " ".intercalate st.1.m_serverArguments) Button.Ok],
            by simp [hadmin, hauth, hexec, hres], by simp [Event.isConnect, Event.isSend]⟩
        · exact ⟨[Event.authorize true,
            Event.execute st.1.m_serverCommand st.1.m_serverArguments false,
            Event.critical
              (st.1.m_serverCommand ++ " " ++ " ".intercalate st.1.m_serverArguments)
              (env.critical (st.2 ++ [Event.authorize true,
                Event.execute st.1.m_serverCommand st.1.m_serverArguments false]))],
            by simp [hadmin, hauth, hexec, hres], by simp [Event.isConnect, Event.isSend]⟩
    · by_cases hres : env.critical (st.2 ++ [Event.authorize false]) = Button.Ok
      · exact ⟨[Event.authorize false,
          Event.critical
            (st.1.m_serverCommand ++ " " ++ " ".intercalate st.1.m_serverArguments) Button.Ok],
          by simp [hadmin, hauth, hres], by simp [Event.isConnect, Event.isSend]⟩
      · exact ⟨[Event.authorize false,
          Event.critical
            (st.1.m_serverCommand ++ " " ++ " ".intercalate st.1.m_serverArguments)
            (env.critical (st.2 ++ [Event.authorize false]))],
          by simp [hadmin, hauth, hres], by simp [Event.isConnect, Event.isSend]⟩
  · exact ⟨[Event.startDetached st.1.m_serverCommand st.1.m_serverArguments
        (env.startDetached st.2)],
      by simp [hadmin], by simp [Event.isConnect, Event.isSend]⟩

theorem launchTrace_of_success (env : Env) (d : RemoteClientPrivate) (tr : List Event)
    (h : launchSucceeds env d tr) :
    startServer env ({ d with m_serverStarting := true }, tr) =
        ({ d with m_serverStarting := true, m_serverStarted := true }, launchTrace env d tr) ∧
      launchTrace env d tr = tr ++ if d.m_startServerAsAdmin then
          [Event.authorize true, Event.execute d.m_serverCommand d.m_serverArguments true]
        else [Event.startDetached d.m_serverCommand d.m_serverArguments true] := by
  have hl : launchSucceeds env { d with m_serverStarting := true } tr := h
  have hst := startServer_of_success env { d with m_serverStarting := true } tr hl
  have hfst : (startServer env ({ d with m_serverStarting := true }, tr)).1 =
      { d with m_serverStarting := true, m_serverStarted := true } := by rw [hst]
  refine ⟨Prod.ext hfst rfl, ?_⟩
  unfold launchTrace
  rw [hst]

theorem maybeStopServer_of_started (env : Env) (d : RemoteClientPrivate)
    (tr : List Event) (h : d.m_serverStarted = true) :
    maybeStopServer env (d, tr) =
      ({ d with m_serverStarted := false },
        tr ++ if env.connect tr then
          [Event.connect true, Event.write "Authorize", Event.write d.m_key,
            Event.write "Shutdown", Event.flush, Event.close]
        else [Event.connect false]) := by
  cases hc : env.connect tr <;>
    simp [maybeStopServer, connect, scopeExit, h, hc, Protocol.Authorize, Protocol.Shutdown]

theorem maybeStopServer_stopped (env : Env) (st : State) :
    (maybeStopServer env st).1.m_serverStarted = false := by
  cases hs : st.1.m_serverStarted
  · rw [maybeStopServer_idle env st hs]
    exact hs
  · rw [show st = (st.1, st.2) from rfl, maybeStopServer_of_started env st.1 st.2 hs]

/-- The shutdown neither launches anything nor touches the command. -/
theorem maybeStopServer_events (env : Env) (st : State) :
    (maybeStopServer env st).1.m_serverCommand = st.1.m_serverCommand ∧
      ∃ ev, (maybeStopServer env st).2 = st.2 ++ ev ∧ ∀ e ∈ ev, e.isLaunch = false := by
  cases hs : st.1.m_serverStarted
  · rw [maybeStopServer_idle env st hs]
    exact ⟨rfl, [], by simp, by simp⟩
  · have h := maybeStopServer_of_started env st.1 st.2 hs
    rw [h]
    refine ⟨rfl, _, rfl, ?_⟩
    cases hc : env.connect st.2 <;> simp [Event.isLaunch]

theorem runCalls_starts_of_started (env : Env) (fuel : Nat) :
    ∀ (calls : List Call) (st : State), st.1.m_serverStarted = true → Call.stop ∉ calls →
      runCalls env fuel calls st = some st := by
  intro calls
  induction calls with
  | nil => intro st _ _; rfl
  | cons c cs ih =>
    intro st hs hno
    cases c with
    | start =>
      rw [runCalls, maybeStartServer_fast env fuel st (Or.inl hs)]
      exact ih st hs (fun h => hno (List.mem_cons_of_mem _ h))
    | stop => exact absurd (List.mem_cons_self _ _) hno

theorem runCalls_of_no_command (env : Env) (fuel : Nat) :
    ∀ (calls : List Call) (st : State), st.1.m_serverCommand.isEmpty = true →
      ∃ st2 ev, runCalls env fuel calls st = some st2 ∧ st2.2 = st.2 ++ ev ∧
        ∀ e ∈ ev, e.isLaunch = false := by
  intro calls
  induction calls with
  | nil => intro st _; exact ⟨st, [], rfl, by simp, by simp⟩
  | cons c cs ih =>
    intro st hcmd
    cases c with
    | start =>
      rw [runCalls, maybeStartServer_fast env fuel st (Or.inr hcmd)]
      exact ih st hcmd
    | stop =>
      obtain ⟨hc, ev1, hev1, hno1⟩ := maybeStopServer_events env st
      obtain ⟨st2, ev2, hrun, hev2, hno2⟩ := ih (maybeStopServer env st) (by rw [hc]; exact hcmd)
      refine ⟨st2, ev1 ++ ev2, hrun, by rw [hev2, hev1, List.append_assoc], ?_⟩
      intro e he
      rcases List.mem_append.mp he with h | h
      · exact hno1 e h
      · exact hno2 e h

/-- The tail of maybeStartServer (the loop when the launch set
m_serverStarted, then the clearing of m_serverStarting) returns once the loop
settles. -/
theorem finish_returns (env : Env) (fuel n : Nat) (S : State)
    (hset : settlesWithin env S.2 n) (hfuel : n < fuel) :
    ∃ st2, ((if S.1.m_serverStarted then verifyLoop env fuel S else some S).map
      fun st => ({ st.1 with m_serverStarting := false }, st.2)) = some st2 := by
  by_cases hs : S.1.m_serverStarted = true
  · obtain ⟨m, b, _, hloop⟩ := verifyLoop_settles env n fuel S.1 S.2 hset hfuel
    rw [if_pos hs, show S = (S.1, S.2) from rfl, hloop]
    exact ⟨_, rfl⟩
  · rw [if_neg hs]
    exact ⟨_, rfl⟩

/-! ## The claims -/

/-- C3: on a started session maybeStopServer makes exactly one connect; when
it succeeds the channel carries exactly "Authorize", the key and "Shutdown",
in that order, before it is flushed and closed; when it fails nothing is
sent; either way m_serverStarted ends false and no other member changes. -/
theorem maybeStopServer_sends_shutdown (env : Env) (d : RemoteClientPrivate)
    (tr : List Event) (h : d.m_serverStarted = true) :
    maybeStopServer env (d, tr) =
        ({ d with m_serverStarted := false },
          tr ++ if env.connect tr then
            [Event.connect true, Event.write "Authorize", Event.write d.m_key,
              Event.write "Shutdown", Event.flush, Event.close]
          else [Event.connect false]) ∧
      (maybeStopServer env (d, tr)).1.m_serverStarted = false :=
  ⟨maybeStopServer_of_started env d tr h, maybeStopServer_stopped env (d, tr)⟩

/-- C4: on a session that is not started maybeStopServer returns the state as
it is (no connect, nothing sent, no member changed); and a second run after a
first one, whatever the transport does in either, returns the state of the
first with nothing added to the history. -/
theorem maybeStopServer_idempotent (env env2 : Env) (st : State) :
    (st.1.m_serverStarted = false → maybeStopServer env st = st) ∧
    maybeStopServer env2 (maybeStopServer env st) = maybeStopServer env st :=
  ⟨maybeStopServer_idle env st,
    maybeStopServer_idle env2 _ (maybeStopServer_stopped env st)⟩

/-- C9: one tick of the watchdog leaves every session member as it was and
adds to the history at most one connect, followed by the close of the socket
when one came back; nothing is written or flushed. -/
theorem onTimeout_probe_only (env : Env) (k : KeepAliveObject) (st : State) :
    (k.onTimeout env st).2.1 = st.1 ∧
    ∃ ev, (k.onTimeout env st).2.2 = st.2 ++ ev ∧
      (ev = [] ∨ ev = [Event.connect false] ∨ ev = [Event.connect true, Event.close]) ∧
      (ev.filter Event.isConnect).length ≤ 1 ∧
      ∀ e ∈ ev, e.isSend = false := by
  cases hk : k.m_client
  · exact ⟨by simp [KeepAliveObject.onTimeout, hk], [],
      by simp [KeepAliveObject.onTimeout, hk], Or.inl rfl, by simp, by simp⟩
  · cases hc : env.connect st.2
    · exact ⟨by simp [KeepAliveObject.onTimeout, hk, connect, scopeExit, hc],
        [Event.connect false],
        by simp [KeepAliveObject.onTimeout, hk, connect, scopeExit, hc],
        Or.inr (Or.inl rfl), by simp [Event.isConnect], by simp [Event.isSend]⟩
    · exact ⟨by simp [KeepAliveObject.onTimeout, hk, connect, scopeExit, hc],
        [Event.connect true, Event.close],
        by simp [KeepAliveObject.onTimeout, hk, connect, scopeExit, hc],
        Or.inr (Or.inr rfl), by simp [Event.isConnect], by simp [Event.isSend]⟩

/-- C2: with elevation required, a failing elevation adapter and an operator
who does not answer Ok, maybeStartServer returns with m_serverStarted and
m_serverStarting both false, no other member changed, and no connect among
the events it added. -/
theorem maybeStartServer_declined (env : Env) (fuel : Nat) (d : RemoteClientPrivate)
    (tr : List Event) (hns : d.m_serverStarted = false)
    (hcmd : d.m_serverCommand.isEmpty = false) (hadmin : d.m_startServerAsAdmin = true)
    (hfail : elevationFails env tr)
    (hdecl : env.critical (authorizeAndExecute env d tr).2 ≠ Button.Ok) :
    ∃ ev, maybeStartServer env fuel (d, tr) =
        some ({ d with m_serverStarted := false, m_serverStarting := false }, tr ++ ev) ∧
      ∀ e ∈ ev, e.isConnect = false := by
  obtain ⟨ev, hev, hno⟩ := startServer_events env ({ d with m_serverStarting := true }, tr)
  refine ⟨ev, ?_, fun e he => (hno e he).1⟩
  have hst := startServer_of_fallback env { d with m_serverStarting := true } tr hadmin hfail
  have hae : authorizeAndExecute env { d with m_serverStarting := true } tr =
      authorizeAndExecute env d tr := rfl
  rw [hae, decide_eq_false hdecl] at hst
  have hfst : (startServer env ({ d with m_serverStarting := true }, tr)).1 =
      { d with m_serverStarting := true, m_serverStarted := false } := by rw [hst]
  have hpair : startServer env ({ d with m_serverStarting := true }, tr) =
      ({ d with m_serverStarting := true, m_serverStarted := false }, tr ++ ev) :=
    Prod.ext hfst hev
  rw [maybeStartServer_slow env fuel d tr hns hcmd, hpair]
  simp

/-- C7: after a launch that reports success, when the first n connects fail
before the deadline and connect number n + 1 succeeds before the deadline,
maybeStartServer returns (the fuel allowing n + 1 rounds) with m_serverStarted
true and m_serverStarting false, having made exactly n + 1 connects, the last
one followed by the close of the socket, and having sent nothing. -/
theorem maybeStartServer_verified (env : Env) (n fuel : Nat) (d : RemoteClientPrivate)
    (tr : List Event) (hns : d.m_serverStarted = false)
    (hcmd : d.m_serverCommand.isEmpty = false) (hlaunch : launchSucceeds env d tr)
    (hfuel : n + 1 ≤ fuel)
    (hfail : ∀ j, j < n → env.elapsed (launchTrace env d tr ++ fails j) < 30000 ∧
      env.connect (launchTrace env d tr ++ fails j) = false)
    (hel : env.elapsed (launchTrace env d tr ++ fails n) < 30000)
    (hok : env.connect (launchTrace env d tr ++ fails n) = true) :
    maybeStartServer env fuel (d, tr) =
        some ({ d with m_serverStarted := true, m_serverStarting := false },
          launchTrace env d tr ++ (fails n ++ [Event.connect true, Event.close])) ∧
      ((fails n ++ [Event.connect true, Event.close]).filter Event.isConnect).length = n + 1 ∧
      ∀ e ∈ fails n ++ [Event.connect true, Event.close], e.isSend = false := by
  have hl : launchSucceeds env { d with m_serverStarting := true } tr := hlaunch
  have hst := startServer_of_success env { d with m_serverStarting := true } tr hl
  have hfst : (startServer env ({ d with m_serverStarting := true }, tr)).1 =
      { d with m_serverStarting := true, m_serverStarted := true } := by rw [hst]
  have hpair : startServer env ({ d with m_serverStarting := true }, tr) =
      ({ d with m_serverStarting := true, m_serverStarted := true }, launchTrace env d tr) :=
    Prod.ext hfst rfl
  refine ⟨?_, ?_, ?_⟩
  · rw [maybeStartServer_slow env fuel d tr hns hcmd, hpair]
    simp only [if_true]
    rw [verifyLoop_success env n fuel _ _ rfl rfl hfuel hfail hel hok]
    simp
  · rw [List.filter_append, filter_isConnect_fails]
    simp [length_fails, Event.isConnect]
  · intro e he
    rcases List.mem_append.mp he with h | h
    · rw [mem_fails n e h]
      rfl
    · simp at h
      rcases h with rfl | rfl <;> rfl

/-- C1, as the code has it: after a launch that reports success, when the
first n connects fail before the deadline and the next check sees the 30000
ms passed, maybeStartServer returns (the fuel allowing n rounds) with
m_serverStarting false and m_serverStarted still true: the result of the
launch is kept, the n failed connects are all it added after the launch. -/
theorem maybeStartServer_timeout (env : Env) (n fuel : Nat) (d : RemoteClientPrivate)
    (tr : List Event) (hns : d.m_serverStarted = false)
    (hcmd : d.m_serverCommand.isEmpty = false) (hlaunch : launchSucceeds env d tr)
    (hfuel : n ≤ fuel)
    (hfail : ∀ j, j < n → env.elapsed (launchTrace env d tr ++ fails j) < 30000 ∧
      env.connect (launchTrace env d tr ++ fails j) = false)
    (hdead : 30000 ≤ env.elapsed (launchTrace env d tr ++ fails n)) :
    maybeStartServer env fuel (d, tr) =
      some ({ d with m_serverStarted := true, m_serverStarting := false },
        launchTrace env d tr ++ fails n) := by
  have hl : launchSucceeds env { d with m_serverStarting := true } tr := hlaunch
  have hst := startServer_of_success env { d with m_serverStarting := true } tr hl
  have hfst : (startServer env ({ d with m_serverStarting := true }, tr)).1 =
      { d with m_serverStarting := true, m_serverStarted := true } := by rw [hst]
  have hpair : startServer env ({ d with m_serverStarting := true }, tr) =
      ({ d with m_serverStarting := true, m_serverStarted := true }, launchTrace env d tr) :=
    Prod.ext hfst rfl
  rw [maybeStartServer_slow env fuel d tr hns hcmd, hpair]
  simp only [if_true]
  rw [verifyLoop_timeout env n fuel _ _ rfl rfl hfuel hfail hdead]
  simp

/-- C8: with elevation required, a failing elevation adapter and an operator
who answers Ok, the launch step sets m_serverStarted with no connect made,
and maybeStartServer returns (once the loop has met the deadline or a connect
that succeeds) with m_serverStarted true and m_serverStarting false whatever
the connects answer. -/
theorem maybeStartServer_fallback (env : Env) (n fuel : Nat) (d : RemoteClientPrivate)
    (tr : List Event) (hns : d.m_serverStarted = false)
    (hcmd : d.m_serverCommand.isEmpty = false) (hadmin : d.m_startServerAsAdmin = true)
    (hfail : elevationFails env tr)
    (hok : env.critical (authorizeAndExecute env d tr).2 = Button.Ok)
    (hset : settlesWithin env (launchTrace env d tr) n) (hfuel : n < fuel) :
    (startServer env ({ d with m_serverStarting := true }, tr)).1.m_serverStarted = true ∧
      (∃ ev, launchTrace env d tr = tr ++ ev ∧ ∀ e ∈ ev, e.isConnect = false) ∧
      ∃ ev, maybeStartServer env fuel (d, tr) =
        some ({ d with m_serverStarted := true, m_serverStarting := false }, tr ++ ev) := by
  have hae : authorizeAndExecute env { d with m_serverStarting := true } tr =
      authorizeAndExecute env d tr := rfl
  have hst := startServer_of_fallback env { d with m_serverStarting := true } tr hadmin hfail
  rw [hae, decide_eq_true hok] at hst
  have hfst : (startServer env ({ d with m_serverStarting := true }, tr)).1 =
      { d with m_serverStarting := true, m_serverStarted := true } := by rw [hst]
  have hpair : startServer env ({ d with m_serverStarting := true }, tr) =
      ({ d with m_serverStarting := true, m_serverStarted := true }, launchTrace env d tr) :=
    Prod.ext hfst rfl
  obtain ⟨ev, hev, hno⟩ := startServer_events env ({ d with m_serverStarting := true }, tr)
  have hev2 : launchTrace env d tr = tr ++ ev := hev
  refine ⟨by rw [hfst], ⟨ev, hev2, fun e he => (hno e he).1⟩, ?_⟩
  obtain ⟨m, b, _, hloop⟩ := verifyLoop_settles env n fuel
    { d with m_serverStarting := true, m_serverStarted := true } _ hset hfuel
  refine ⟨ev ++ (fails m ++ if b then [Event.connect true, Event.close] else []), ?_⟩
  rw [maybeStartServer_slow env fuel d tr hns hcmd, hpair]
  simp only [if_true]
  rw [hloop, hev2]
  cases b <;> simp

/-- C1 fails as stated: the release-mode session is not started and has a
command, the spawn reports success, all three connects made before the
deadline fail and the timer then reads 30000 ms; maybeStartServer returns
with m_serverStarted true. -/
theorem maybeStartServer_timeout_keeps_started :
    releaseSession.m_mode = some Mode.Release ∧
    releaseSession.m_serverStarted = false ∧
    releaseSession.m_serverCommand.isEmpty = false ∧
    launchSucceeds (scripted false false Button.Abort true 100 10000) releaseSession [] ∧
    maybeStartServer (scripted false false Button.Abort true 100 10000) 5 (releaseSession, []) =
      some ({ releaseSession with m_serverStarted := true },
        [Event.startDetached "installerbase" ["--startserver", "39999"] true,
          Event.connect false, Event.connect false, Event.connect false]) ∧
    (scripted false false Button.Abort true 100 10000).elapsed
      [Event.startDetached "installerbase" ["--startserver", "39999"] true,
        Event.connect false, Event.connect false, Event.connect false] = 30000 ∧
    (maybeStartServer (scripted false false Button.Abort true 100 10000) 5
      (releaseSession, [])).map (fun st => st.1.m_serverStarted) = some true := by
  decide

/-- C5 fails as stated: on the debug-mode session with a server command a
stop followed by a start spawns the server, the session no longer being
started when maybeStartServer runs. -/
theorem debug_start_after_stop_spawns :
    debugSession.1.m_mode = some Mode.Debug ∧
    debugSession.1.m_serverStarted = true ∧
    runCalls (scripted false false Button.Abort true 0 0) 3 [Call.stop, Call.start]
        debugSession =
      some ({ debugSession.1 with m_serverStarted := true },
        [Event.connect true, Event.write "Authorize", Event.write "DebugAuthorizationKey",
          Event.write "Shutdown", Event.flush, Event.close,
          Event.startDetached "installerbase" [] true,
          Event.connect true, Event.close]) ∧
    (Event.startDetached "installerbase" [] true).isLaunch = true := by
  decide

/-- C5, as the code has it: init in debug mode leaves the session started
with the key "DebugAuthorizationKey" and adds no event; from there any
sequence of start calls, and any sequence of start and stop calls when the
server command is empty, returns without a call of the elevation adapter and
without a spawn. -/
theorem debug_bypass (env : Env) (fuel port : Nat) (address : String) (st : State)
    (calls : List Call) (h : st.1.m_serverCommand.isEmpty = true ∨ Call.stop ∉ calls) :
    (init port address Mode.Debug st).1.m_serverStarted = true ∧
      (init port address Mode.Debug st).1.m_key = "DebugAuthorizationKey" ∧
      ∃ st2 ev, runCalls env fuel calls (init port address Mode.Debug st) = some st2 ∧
        st2.2 = st.2 ++ ev ∧ ∀ e ∈ ev, e.isLaunch = false := by
  have hst : (init port address Mode.Debug st).1.m_serverStarted = true := by
    simp [init]
  have htr : (init port address Mode.Debug st).2 = st.2 := by
    simp [init]
  have hcmd : (init port address Mode.Debug st).1.m_serverCommand = st.1.m_serverCommand := by
    simp [init]
  refine ⟨hst, by simp [init, Protocol.DebugAuthorizationKey], ?_⟩
  rcases h with h | h
  · obtain ⟨st2, ev, hrun, hev, hno⟩ :=
      runCalls_of_no_command env fuel calls (init port address Mode.Debug st) (by rw [hcmd]; exact h)
    exact ⟨st2, ev, hrun, by rw [hev, htr], hno⟩
  · exact ⟨_, [], runCalls_starts_of_started env fuel calls _ hst h, by simp [htr], by simp⟩

/-- C6: on a session that is started or has no server command
maybeStartServer returns the state as it is (no elevation, no spawn, no
connect, no member changed); and N calls in a row, N at least 1, on a session
that is not started, has a command and whose launch reports success, return
(once the loop of the first call has met the deadline or a connect that
succeeds) the state the first call returns, with m_serverStarted true and
exactly one launch attempt among the events added. -/
theorem maybeStartServer_idempotent (env : Env) (fuel : Nat) (d : RemoteClientPrivate)
    (tr : List Event) :
    (d.m_serverStarted = true ∨ d.m_serverCommand.isEmpty = true →
      maybeStartServer env fuel (d, tr) = some (d, tr)) ∧
    ∀ n N : Nat, d.m_serverStarted = false → d.m_serverCommand.isEmpty = false →
      launchSucceeds env d tr → settlesWithin env (launchTrace env d tr) n → n < fuel →
      1 ≤ N →
      ∃ ev, runCalls env fuel (List.replicate N Call.start) (d, tr) =
          some ({ d with m_serverStarted := true, m_serverStarting := false }, tr ++ ev) ∧
        maybeStartServer env fuel (d, tr) =
          some ({ d with m_serverStarted := true, m_serverStarting := false }, tr ++ ev) ∧
        (ev.filter Event.isAttempt).length = 1 := by
  refine ⟨maybeStartServer_fast env fuel (d, tr), ?_⟩
  intro n N hns hcmd hlaunch hset hfuel hN
  obtain ⟨hpair, hlt⟩ := launchTrace_of_success env d tr hlaunch
  obtain ⟨m, b, _, hloop⟩ := verifyLoop_settles env n fuel
    { d with m_serverStarting := true, m_serverStarted := true } _ hset hfuel
  have hfirst : maybeStartServer env fuel (d, tr) =
      some ({ d with m_serverStarted := true, m_serverStarting := false },
        tr ++ ((if d.m_startServerAsAdmin then
            [Event.authorize true, Event.execute d.m_serverCommand d.m_serverArguments true]
          else [Event.startDetached d.m_serverCommand d.m_serverArguments true]) ++
          (fails m ++ if b then [Event.connect true, Event.close] else []))) := by
    rw [maybeStartServer_slow env fuel d tr hns hcmd, hpair]
    simp only [if_true]
    rw [hloop, hlt]
    cases b <;> simp
  refine ⟨_, ?_, hfirst, ?_⟩
  · obtain ⟨N, rfl⟩ : ∃ k, N = k + 1 := ⟨N - 1, by omega⟩
    rw [List.replicate_succ, runCalls, hfirst, Option.some_bind]
    exact runCalls_starts_of_started env fuel _ _ rfl (by simp)
  · have hf : (fails m).filter Event.isAttempt = [] := by
      apply List.filter_eq_nil_iff.mpr
      intro e he
      rw [mem_fails m e he]
      simp [Event.isAttempt]
    rw [List.filter_append, List.filter_append, hf]
    cases d.m_startServerAsAdmin <;> cases b <;> simp [Event.isAttempt]

/-- C10: m_serverStarting is false after construction, and from a state where
it is false it is false again after init (either mode), after maybeStopServer
and after maybeStartServer whenever that returns; maybeStartServer does
return, on every path, once its loop meets the deadline or a connect that
succeeds. -/
theorem starting_never_left_set (env : Env) (fuel port : Nat) (address : String) (mode : Mode)
    (st : State) (h : st.1.m_serverStarting = false) :
    RemoteClientPrivate.new.m_serverStarting = false ∧
      (init port address mode st).1.m_serverStarting = false ∧
      (maybeStopServer env st).1.m_serverStarting = false ∧
      (∀ st2, maybeStartServer env fuel st = some st2 → st2.1.m_serverStarting = false) ∧
      ∀ n, settlesWithin env (launchTrace env st.1 st.2) n → n < fuel →
        ∃ st2, maybeStartServer env fuel st = some st2 ∧ st2.1.m_serverStarting = false := by
  have hpart : ∀ st2, maybeStartServer env fuel st = some st2 →
      st2.1.m_serverStarting = false := by
    intro st2 hrun
    by_cases hfast : st.1.m_serverStarted = true ∨ st.1.m_serverCommand.isEmpty = true
    · rw [maybeStartServer_fast env fuel st hfast] at hrun
      cases hrun
      exact h
    · have hns : st.1.m_serverStarted = false := by
        cases hs : st.1.m_serverStarted
        · rfl
        · exact absurd (Or.inl hs) hfast
      have hcmd : st.1.m_serverCommand.isEmpty = false := by
        cases hs : st.1.m_serverCommand.isEmpty
        · rfl
        · exact absurd (Or.inr hs) hfast
      rw [show st = (st.1, st.2) from rfl, maybeStartServer_slow env fuel st.1 st.2 hns hcmd] at hrun
      obtain ⟨a, _, ha⟩ := Option.map_eq_some'.mp hrun
      rw [← ha]
  refine ⟨rfl, ?_, ?_, hpart, ?_⟩
  · cases mode <;> simp [init, h]
  · cases hs : st.1.m_serverStarted
    · rw [maybeStopServer_idle env st hs]
      exact h
    · rw [show st = (st.1, st.2) from rfl, maybeStopServer_of_started env st.1 st.2 hs]
      exact h
  · intro n hset hfuel
    suffices hsome : ∃ st2, maybeStartServer env fuel st = some st2 by
      obtain ⟨st2, hrun⟩ := hsome
      exact ⟨st2, hrun, hpart st2 hrun⟩
    by_cases hfast : st.1.m_serverStarted = true ∨ st.1.m_serverCommand.isEmpty = true
    · exact ⟨st, maybeStartServer_fast env fuel st hfast⟩
    · have hns : st.1.m_serverStarted = false := by
        cases hs : st.1.m_serverStarted
        · rfl
        · exact absurd (Or.inl hs) hfast
      have hcmd : st.1.m_serverCommand.isEmpty = false := by
        cases hs : st.1.m_serverCommand.isEmpty
        · rfl
        · exact absurd (Or.inr hs) hfast
      rw [show st = (st.1, st.2) from rfl, maybeStartServer_slow env fuel st.1 st.2 hns hcmd]
      exact finish_returns env fuel n _ hset hfuel

/-! ## The claims at concrete inputs -/

/-- The timeout theorem on the release-mode session: the spawn succeeds, the
server never listens, every connect takes 10 s. -/
theorem maybeStartServer_timeout_witness :
    maybeStartServer (scripted false false Button.Abort true 100 10000) 5 (releaseSession, []) =
      some ({ releaseSession with m_serverStarted := true, m_serverStarting := false },
        launchTrace (scripted false false Button.Abort true 100 10000) releaseSession [] ++
          fails 3) :=
  maybeStartServer_timeout (scripted false false Button.Abort true 100 10000) 3 5
    releaseSession [] rfl rfl (by decide) (by decide) (by decide) (by decide)

/-- The declined fallback on the elevated session: authorize fails, the
operator answers Abort. -/
theorem maybeStartServer_declined_witness :
    elevationFails (scripted false false Button.Abort false 0 0) [] ∧
    ∃ ev, maybeStartServer (scripted false false Button.Abort false 0 0) 0 (adminSession, []) =
        some ({ adminSession with m_serverStarted := false, m_serverStarting := false },
          [] ++ ev) ∧
      ∀ e ∈ ev, e.isConnect = false :=
  ⟨by decide,
    maybeStartServer_declined (scripted false false Button.Abort false 0 0) 0 adminSession []
      rfl rfl rfl (by decide) (by decide)⟩

/-- The shutdown of the started session while the server is reachable. -/
theorem maybeStopServer_sends_shutdown_witness :
    startedSession.m_serverStarted = true ∧
    maybeStopServer (scripted false false Button.Abort true 0 0) (startedSession, []) =
        ({ startedSession with m_serverStarted := false },
          [] ++ if (scripted false false Button.Abort true 0 0).connect [] then
            [Event.connect true, Event.write "Authorize", Event.write startedSession.m_key,
              Event.write "Shutdown", Event.flush, Event.close]
          else [Event.connect false]) ∧
      (maybeStopServer (scripted false false Button.Abort true 0 0)
        (startedSession, [])).1.m_serverStarted = false :=
  ⟨rfl, maybeStopServer_sends_shutdown (scripted false false Button.Abort true 0 0)
    startedSession [] rfl⟩

/-- Two shutdowns in a row of the started session, the server reachable in
the first and gone in the second. -/
theorem maybeStopServer_idempotent_witness :
    maybeStopServer (scripted false false Button.Abort true 100 0)
        (maybeStopServer (scripted false false Button.Abort true 0 0) (startedSession, [])) =
      maybeStopServer (scripted false false Button.Abort true 0 0) (startedSession, []) :=
  (maybeStopServer_idempotent (scripted false false Button.Abort true 0 0)
    (scripted false false Button.Abort true 100 0) (startedSession, [])).2

/-- The debug bypass on a session with a server command: two starts in a row. -/
theorem debug_bypass_witness :
    Call.stop ∉ [Call.start, Call.start] ∧
    ∃ st2 ev, runCalls (scripted true true Button.Ok true 0 0) 3 [Call.start, Call.start]
        (init 39999 "127.0.0.1" Mode.Debug
          ({ RemoteClientPrivate.new with m_serverCommand := "installerbase" }, [])) = some st2 ∧
      st2.2 = [] ++ ev ∧ ∀ e ∈ ev, e.isLaunch = false :=
  ⟨by decide,
    (debug_bypass (scripted true true Button.Ok true 0 0) 3 39999 "127.0.0.1"
      ({ RemoteClientPrivate.new with m_serverCommand := "installerbase" }, [])
      [Call.start, Call.start] (Or.inr (by decide))).2.2⟩

/-- Three starts in a row of the release-mode session, the server listening
from the second connect on. -/
theorem maybeStartServer_idempotent_witness :
    ∃ ev, runCalls (scripted false false Button.Abort true 1 1000) 5
          (List.replicate 3 Call.start) (releaseSession, []) =
          some ({ releaseSession with m_serverStarted := true, m_serverStarting := false },
            [] ++ ev) ∧
        maybeStartServer (scripted false false Button.Abort true 1 1000) 5 (releaseSession, []) =
          some ({ releaseSession with m_serverStarted := true, m_serverStarting := false },
            [] ++ ev) ∧
        (ev.filter Event.isAttempt).length = 1 :=
  (maybeStartServer_idempotent (scripted false false Button.Abort true 1 1000) 5
    releaseSession []).2 1 3 rfl rfl (by decide) (by decide) (by decide) (by decide)

/-- The verified start of the release-mode session: the third connect is the
first to succeed, one second after the other. -/
theorem maybeStartServer_verified_witness :
    maybeStartServer (scripted false false Button.Abort true 2 1000) 3 (releaseSession, []) =
        some ({ releaseSession with m_serverStarted := true, m_serverStarting := false },
          launchTrace (scripted false false Button.Abort true 2 1000) releaseSession [] ++
            (fails 2 ++ [Event.connect true, Event.close])) ∧
      ((fails 2 ++ [Event.connect true, Event.close]).filter Event.isConnect).length = 2 + 1 ∧
      ∀ e ∈ fails 2 ++ [Event.connect true, Event.close], e.isSend = false :=
  maybeStartServer_verified (scripted false false Button.Abort true 2 1000) 2 3
    releaseSession [] rfl rfl (by decide) (by decide) (by decide) (by decide) (by decide)

/-- The confirmed fallback on the elevated session: authorize fails, the
operator answers Ok, no connect ever succeeds and each takes 15 s. -/
theorem maybeStartServer_fallback_witness :
    (startServer (scripted false false Button.Ok false 100 15000)
        ({ adminSession with m_serverStarting := true }, [])).1.m_serverStarted = true ∧
      (∃ ev, launchTrace (scripted false false Button.Ok false 100 15000) adminSession [] =
        [] ++ ev ∧ ∀ e ∈ ev, e.isConnect = false) ∧
      ∃ ev, maybeStartServer (scripted false false Button.Ok false 100 15000) 3
          (adminSession, []) =
        some ({ adminSession with m_serverStarted := true, m_serverStarting := false },
          [] ++ ev) :=
  maybeStartServer_fallback (scripted false false Button.Ok false 100 15000) 2 3
    adminSession [] rfl rfl rfl (by decide) (by decide) (by decide) (by decide)

/-- The frame of a watchdog tick on the started session. -/
theorem onTimeout_probe_only_witness :
    (watchdog.onTimeout (scripted false false Button.Abort true 0 0)
      (startedSession, [])).2.1 = startedSession :=
  (onTimeout_probe_only (scripted false false Button.Abort true 0 0) watchdog
    (startedSession, [])).1

/-- The Starting flag around the operations on the release-mode session. -/
theorem starting_never_left_set_witness :
    (releaseSession, ([] : List Event)).1.m_serverStarting = false ∧
    (maybeStopServer (scripted false false Button.Abort true 2 1000)
      (releaseSession, [])).1.m_serverStarting = false ∧
    ∃ st2, maybeStartServer (scripted false false Button.Abort true 2 1000) 5
        (releaseSession, []) = some st2 ∧ st2.1.m_serverStarting = false :=
  ⟨rfl,
    (starting_never_left_set (scripted false false Button.Abort true 2 1000) 5 39999
      "127.0.0.1" Mode.Release (releaseSession, []) rfl).2.2.1,
    (starting_never_left_set (scripted false false Button.Abort true 2 1000) 5 39999
      "127.0.0.1" Mode.Release (releaseSession, []) rfl).2.2.2.2 2 (by decide) (by decide)⟩

end QInstaller
